import Mathlib

/-!
Verification of the Weight Tracker backend core against its specification.

The development shallowly embeds the TypeScript core in Lean:

* instants are integers (milliseconds since epoch for the event ledger and
  the workflow engine, minutes since epoch for the notification scheduler,
  matching the granularity each piece of code actually observes);
* an IANA timezone is modelled by its fixed UTC offset (in minutes), which
  is exact for the fixed-offset zones the code is deployed with
  (`Asia/Kolkata` has no DST);
* a Firestore document is a structure, a transaction is a pure function
  from the documents it reads to the documents it writes (a thrown error
  aborts the transaction, so the state component returned alongside an
  `Except.error` is the unchanged input);
* `FieldValue.serverTimestamp()` and `Timestamp.now()` become an explicit
  `now` argument.
-/

namespace WeightTracker

/-! ## Event ledger (`src/functions/src/services/events.ts`) -/

/-- Closed enum of trackable behaviors (`EventName` in `types/index.ts`). -/
inductive EventName where
  | DEVICE_REGISTERED
  | WEIGHT_LOGGED
  | FOOD_ANALYZED
  | NOTIFICATION_DELIVERED
  | NOTIFICATION_RECEIVED
  | NOTIFICATION_OPENED
  | INTENT_CAPTURED
  | INTENT_CLOSED
deriving DecidableEq

/-- Milliseconds in one day, the divisor used by `computeStreak`. -/
def msPerDay : Int := 1000 * 60 * 60 * 24

/-- JS `new Date("YYYY-MM-DD").getTime()` for a calendar date: dates are
modelled as epoch-day numbers, and parsing a date-only string yields UTC
midnight of that day. -/
def dateMs (day : Int) : Int := day * msPerDay

/-- Embeds `computeStreak` (`events.ts:41`).  `Math.floor` division is
`Int.fdiv`.  Calendar dates (the `last_log_date` / local-date strings) are
epoch-day numbers. -/
def computeStreak (currentStreak : Int) (lastLogDate : Option Int)
    (newLogDate : Int) : Int :=
  match lastLogDate with
  | none => 1
  | some last =>
    let diffDays := Int.fdiv (dateMs newLogDate - dateMs last) msPerDay
    if diffDays = 0 then currentStreak
    else if diffDays = 1 then currentStreak + 1
    else 1

/-- Embeds `getLocalDate` (`events.ts:23`): the calendar date of `tsMs` in a
timezone of fixed offset `tzOffsetMin` minutes, as an epoch-day number. -/
def getLocalDate (tsMs : Int) (tzOffsetMin : Int) : Int :=
  Int.fdiv (tsMs + tzOffsetMin * 60000) msPerDay

/-- Behavioral fields of a `users/{uid}` document touched by `trackEventTx`.
The `?? 0` / `?? null` coercions applied on read are baked in by making the
fields total. -/
structure UserState where
  current_streak : Int
  last_log_date : Option Int
  total_logs : Int
  timezone : Int
  last_active_at : Int
deriving DecidableEq

/-- The slice of the store a `trackEventTx` transaction touches: the set of
already-written event ids and the (possibly absent) user document. -/
structure EventsState where
  events : List String
  user : Option UserState
deriving DecidableEq

/-- Result status of `trackEventTx`. -/
inductive TrackStatus where
  | created
  | duplicate
deriving DecidableEq

/-- Parameters of one `trackEvent` submission. -/
structure TrackParams where
  eventId : String
  eventName : EventName
  timestampMs : Int
  tzOffsetMin : Int
deriving DecidableEq

/-- Embeds the transaction body of `trackEventTx` (`events.ts:112`).

* existing event id: short-circuit `duplicate`, no writes;
* `WEIGHT_LOGGED` on an existing user doc: `transaction.update` with
  `streakUpdate` (streak, local date, `FieldValue.increment(1)` on
  `total_logs`) plus timezone and `last_active_at`;
* `WEIGHT_LOGGED` on an absent user doc: `transaction.set(..., {merge:true})`
  whose object literal spreads `streakUpdate` first and then writes the
  literal field `total_logs: 0` after the spread, so the later literal wins
  over the spread increment;
* any other kind: only timezone and `last_active_at` change (absent doc is
  initialised with zero streak / null date / zero logs). -/
def trackEventTx (s : EventsState) (p : TrackParams) (now : Int) :
    TrackStatus × EventsState :=
  if p.eventId ∈ s.events then (.duplicate, s)
  else
    let localDate := getLocalDate p.timestampMs p.tzOffsetMin
    let events' := p.eventId :: s.events
    match s.user with
    | some u =>
      if p.eventName = .WEIGHT_LOGGED then
        let newStreak := computeStreak u.current_streak u.last_log_date localDate
        (.created, ⟨events',
          some { current_streak := newStreak
                 last_log_date := some localDate
                 total_logs := u.total_logs + 1
                 timezone := p.tzOffsetMin
                 last_active_at := now }⟩)
      else
        (.created, ⟨events',
          some { u with timezone := p.tzOffsetMin, last_active_at := now }⟩)
    | none =>
      if p.eventName = .WEIGHT_LOGGED then
        let newStreak := computeStreak 0 none localDate
        (.created, ⟨events',
          some { current_streak := newStreak
                 last_log_date := some localDate
                 total_logs := 0
                 timezone := p.tzOffsetMin
                 last_active_at := now }⟩)
      else
        (.created, ⟨events',
          some { current_streak := 0
                 last_log_date := none
                 total_logs := 0
                 timezone := p.tzOffsetMin
                 last_active_at := now }⟩)

/-! ## Deferred-link workflow engine (`src/functions/src/services/workflow.ts`) -/

/-- Workflow status (`types/workflow.ts`): `EXPIRED` is computed, never
persisted. -/
inductive WorkflowStatus where
  | ACTIVE
  | COMPLETED
  | EXPIRED
deriving DecidableEq

/-- The single allowed workflow type (`WORKFLOW_TYPES = ["LOG_WEIGHT"]`). -/
inductive WorkflowType where
  | LOG_WEIGHT
deriving DecidableEq

/-- Payload schema `LogWeightPayload` from `types/workflow.ts`. -/
structure LogWeightPayload where
  suggestedWeight : Option Int
  source : Option String
deriving DecidableEq

/-- Mutable counters nested under `metadata` in a workflow document. -/
structure WorkflowMetadata where
  clickCount : Int
  resolveCount : Int
  lastResolvedAt : Option Int
deriving DecidableEq

/-- Stored `WorkflowDocument` from `types/workflow.ts` (instants in millis). -/
structure WorkflowDocument where
  id : String
  type : WorkflowType
  status : WorkflowStatus
  payload : LogWeightPayload
  userId : Option String
  campaignId : Option String
  createdAt : Int
  expiresAt : Int
  completedAt : Option Int
  maxResolves : Option Int
  metadata : WorkflowMetadata
deriving DecidableEq

/-- Error codes of the `ApiError`s thrown by the workflow service. -/
inductive ApiErr where
  | invalidWorkflowId
  | workflowNotFound
  | workflowExpired
deriving DecidableEq

/-- Embeds `computeStatus` (`workflow.ts:136`): effective status as a pure
function of persisted status, fixed expiry instant and `now`. -/
def computeStatus (w : WorkflowDocument) (now : Int) : WorkflowStatus :=
  if w.status = .COMPLETED then .COMPLETED
  else if w.expiresAt < now then .EXPIRED
  else .ACTIVE

/-- Crockford-base32 character class of `WORKFLOW_ID_REGEX`
(`/^WF_[0-9A-HJKMNP-TV-Z]{26}$/`). -/
def isUlidChar (c : Char) : Bool :=
  decide (('0' ≤ c ∧ c ≤ '9') ∨ ('A' ≤ c ∧ c ≤ 'H') ∨ c = 'J' ∨ c = 'K' ∨
    c = 'M' ∨ c = 'N' ∨ ('P' ≤ c ∧ c ≤ 'T') ∨ ('V' ≤ c ∧ c ≤ 'Z'))

/-- Embeds `validateWorkflowId` (`workflow.ts:57`) as the boolean match of
`WORKFLOW_ID_REGEX`: a literal `WF_` prefix followed by exactly 26
Crockford-base32 characters. -/
def validWorkflowId (id : String) : Bool :=
  match id.toList with
  | 'W' :: 'F' :: '_' :: rest => rest.length = 26 && rest.all isUlidChar
  | _ => false

/-- Result payload of `resolveWorkflow`. -/
structure ResolveResult where
  type : WorkflowType
  status : WorkflowStatus
  payload : LogWeightPayload
  expiresAt : Int
deriving DecidableEq

/-- Embeds `resolveWorkflow` (`workflow.ts:220`): id-format validation
before any lookup, 404 on an absent document, lazy effective status, and an
unconditional counter increment (`metadata.resolveCount += 1`,
`metadata.lastResolvedAt := now`).  The returned document is the persisted
document after the call (unchanged when an error is thrown). -/
def resolveWorkflow (workflowId : String) (doc : Option WorkflowDocument)
    (now : Int) : Except ApiErr ResolveResult × Option WorkflowDocument :=
  if ¬ validWorkflowId workflowId then (.error .invalidWorkflowId, doc)
  else
    match doc with
    | none => (.error .workflowNotFound, none)
    | some w =>
      let computedStatus := computeStatus w now
      let w' := { w with metadata :=
        { w.metadata with resolveCount := w.metadata.resolveCount + 1
                          lastResolvedAt := some now } }
      (.ok { type := w.type, status := computedStatus, payload := w.payload
             expiresAt := w.expiresAt }, some w')

/-- Iterates `resolveWorkflow` on the stored document, keeping the stored
document unchanged when a call errors. -/
def resolveIter (workflowId : String) (w : WorkflowDocument) (now : Int) :
    Nat → WorkflowDocument
  | 0 => w
  | n + 1 =>
    let prev := resolveIter workflowId w now n
    match resolveWorkflow workflowId (some prev) now with
    | (.ok _, some w') => w'
    | _ => prev

/-- Embeds the transaction body of `completeWorkflow` (`workflow.ts:285`).
A thrown `ApiError` aborts the transaction, so the document component
returned with an error is the unchanged input. -/
def completeWorkflowTx (doc : Option WorkflowDocument) (now : Int) :
    Except ApiErr Unit × Option WorkflowDocument :=
  match doc with
  | none => (.error .workflowNotFound, none)
  | some w =>
    match computeStatus w now with
    | .COMPLETED => (.ok (), some w)
    | .EXPIRED => (.error .workflowExpired, some w)
    | .ACTIVE =>
      (.ok (), some { w with status := .COMPLETED, completedAt := some now })

/-! ## Notification scheduling engine (`services/user.ts`, scheduling part) -/

/-- Minutes in one day; the scheduler is modelled at minute granularity
(`setUTCHours(h, m, 0, 0)` zeroes seconds and milliseconds, and every
comparison the code makes is at whole-minute resolution). -/
def minutesPerDay : Int := 1440

/-- Wall-clock hour (0–23) of an instant given in minutes since epoch. -/
def hourOfDay (t : Int) : Int := t.emod minutesPerDay / 60

/-- Wall-clock minute-of-hour of an instant given in minutes since epoch. -/
def minuteOfHour (t : Int) : Int := t.emod 60

/-- Embeds `localTimeToNextUTC` (`services/user.ts`).  `tzOff` is the
timezone's fixed UTC offset in minutes, so the `Intl` formatter applied to
`now` reads the wall clock of `now + tzOff`; the second formatter (used for
`offsetHours`) reads the same instant, giving `tzHour = localHour`.  The
code's two sequential range corrections on `targetUTCHour` and its
`setUTCHours`-on-today's-UTC-date construction are kept verbatim. -/
def localTimeToNextUTC (hour minute : Int) (tzOff : Int) (now : Int) : Int :=
  let localNow := now + tzOff
  let localHour := hourOfDay localNow
  let localMinute := minuteOfHour localNow
  let utcHour := hourOfDay now
  let tzHour := localHour
  let offsetHours := tzHour - utcHour
  let targetUTCHour0 := hour - offsetHours
  let targetUTCHour1 :=
    if targetUTCHour0 < 0 then targetUTCHour0 + 24 else targetUTCHour0
  let targetUTCHour :=
    if 24 ≤ targetUTCHour1 then targetUTCHour1 - 24 else targetUTCHour1
  let targetDate := (now - now.emod minutesPerDay) + targetUTCHour * 60 + minute
  let hasPassed :=
    hour < localHour ∨ (localHour = hour ∧ minute ≤ localMinute)
  if hasPassed then targetDate + minutesPerDay else targetDate

/-- Notification types (`NOTIFICATION_CONFIG.TYPES`). -/
inductive NotificationType where
  | weight
  | breakfast
  | lunch
  | dinner
  | snacks
deriving DecidableEq

/-- Iteration order of `NOTIFICATION_CONFIG.TYPES`. -/
def NOTIFICATION_TYPES : List NotificationType :=
  [.weight, .breakfast, .lunch, .dinner, .snacks]

/-- A single type's preference (`NotificationPref`). -/
structure NotificationPref where
  enabled : Bool
  hour : Int
  minute : Int
deriving DecidableEq

/-- The per-type preference map `UserDocument.notificationPrefs`; each
entry may be absent. -/
structure NotificationPrefs where
  weight : Option NotificationPref
  breakfast : Option NotificationPref
  lunch : Option NotificationPref
  dinner : Option NotificationPref
  snacks : Option NotificationPref
deriving DecidableEq

/-- Looks up `prefs[type]`. -/
def getPref (ps : NotificationPrefs) : NotificationType → Option NotificationPref
  | .weight => ps.weight
  | .breakfast => ps.breakfast
  | .lunch => ps.lunch
  | .dinner => ps.dinner
  | .snacks => ps.snacks

/-- Functional update `{...prefs, [type]: p}`. -/
def setPref (ps : NotificationPrefs) (t : NotificationType)
    (p : NotificationPref) : NotificationPrefs :=
  match t with
  | .weight => { ps with weight := some p }
  | .breakfast => { ps with breakfast := some p }
  | .lunch => { ps with lunch := some p }
  | .dinner => { ps with dinner := some p }
  | .snacks => { ps with snacks := some p }

/-- The loop body of `computeNextNotification`: skip a type whose
preference is absent or disabled, otherwise pair it with its converted
next-UTC instant. -/
def notificationCandidate (ps : NotificationPrefs) (tzOff now : Int)
    (t : NotificationType) : Option (NotificationType × Int) :=
  match getPref ps t with
  | none => none
  | some p =>
    if p.enabled then some (t, localTimeToNextUTC p.hour p.minute tzOff now)
    else none

/-- The tail of `computeNextNotification` on the collected candidate list:
`Math.min` over a nonempty list, then the full set of types tied at the
minimum. -/
def minCandidate : List (NotificationType × Int) →
    Option Int × List NotificationType
  | [] => (none, [])
  | c :: rest =>
    let minTime := (rest.map Prod.snd).foldl min c.2
    (some minTime,
      ((c :: rest).filter (fun x => x.2 == minTime)).map Prod.fst)

/-- Embeds `computeNextNotification` (`services/user.ts`):
`{ nextUTC: null, types: [] }` when `prefs` is absent or nothing is
enabled, otherwise the minimum converted instant and every enabled type
tied at it. -/
def computeNextNotification (prefs : Option NotificationPrefs)
    (tzOff now : Int) : Option Int × List NotificationType :=
  match prefs with
  | none => (none, [])
  | some ps =>
    minCandidate (NOTIFICATION_TYPES.filterMap (notificationCandidate ps tzOff now))

/-- Default timezone `NOTIFICATION_CONFIG.DEFAULT_TIMEZONE = "Asia/Kolkata"` (UTC+05:30) as
a fixed offset in minutes. -/
def DEFAULT_TIMEZONE : Int := 330

/-- Defaults table `NOTIFICATION_CONFIG.DEFAULTS` per type. -/
def NOTIFICATION_DEFAULTS : NotificationType → NotificationPref
  | .weight => ⟨true, 7, 30⟩
  | .breakfast => ⟨true, 8, 30⟩
  | .lunch => ⟨true, 13, 0⟩
  | .snacks => ⟨true, 17, 0⟩
  | .dinner => ⟨true, 20, 30⟩

/-- Scheduling-relevant fields of a `users/{uid}` document. -/
structure SchedUserDoc where
  timezone : Option Int
  notificationPrefs : Option NotificationPrefs
  nextNotificationUTC : Option Int
  nextNotificationTypes : List NotificationType
  lastNotificationWindow : Option String
deriving DecidableEq

/-- Input shape `NotificationPrefInput` (`services/user.ts`). -/
structure NotificationPrefInput where
  type : NotificationType
  enabled : Bool
  hour : Option Int
  minute : Option Int
deriving DecidableEq

/-- Embeds `updateNotificationPref` (`services/user.ts`) on an existing
user document: merge the one type's preference (filling absent hour/minute
from the type's defaults), recompute the full schedule with
`computeNextNotification`, and write the new next-instant/type-set (or
delete both when nothing is enabled). -/
def updateNotificationPref (d : SchedUserDoc) (input : NotificationPrefInput)
    (userTimezone : Option Int) (now : Int) : SchedUserDoc :=
  let timezone :=
    match userTimezone with
    | some tz => tz
    | none => d.timezone.getD DEFAULT_TIMEZONE
  let defaults := NOTIFICATION_DEFAULTS input.type
  let newPref : NotificationPref :=
    { enabled := input.enabled
      hour := input.hour.getD defaults.hour
      minute := input.minute.getD defaults.minute }
  let existingPrefs := d.notificationPrefs.getD ⟨none, none, none, none, none⟩
  let updatedPrefs := setPref existingPrefs input.type newPref
  let r := computeNextNotification (some updatedPrefs) timezone now
  { d with
    notificationPrefs := some updatedPrefs
    timezone := match userTimezone with
      | some tz => some tz
      | none => d.timezone
    nextNotificationUTC := r.1
    nextNotificationTypes := match r.1 with
      | some _ => r.2
      | none => [] }

/-- Embeds `scheduleNextNotification` (`services/user.ts`) on an existing
user document: recompute the next occurrence over all enabled preferences,
push it one day later when it falls less than 23 hours away
(`minNextTime`), and persist it together with
`lastNotificationWindow := windowKey`. -/
def scheduleNextNotification (d : SchedUserDoc) (windowKey : String)
    (now : Int) : SchedUserDoc :=
  let timezone := d.timezone.getD DEFAULT_TIMEZONE
  let r := computeNextNotification d.notificationPrefs timezone now
  match r.1 with
  | some t =>
    let minNextTime := now + 23 * 60
    let t' := if t < minNextTime then t + minutesPerDay else t
    { d with lastNotificationWindow := some windowKey
             nextNotificationUTC := some t'
             nextNotificationTypes := r.2 }
  | none =>
    { d with lastNotificationWindow := some windowKey
             nextNotificationUTC := none
             nextNotificationTypes := [] }

/-! ## Driver and dispatcher (`handlers/unifiedCron.ts`) -/

/-- Shape `EligibleUser` as produced by `getEligibleUsers`. -/
structure EligibleUser where
  uid : String
  timezone : Int
  notificationTypes : List NotificationType
  notificationPrefs : Option NotificationPrefs
  lastNotificationWindow : Option String
deriving DecidableEq

/-- The projection `getEligibleUsers` applies to a stored user document. -/
def toEligibleUser (uid : String) (d : SchedUserDoc) : EligibleUser :=
  { uid := uid
    timezone := d.timezone.getD DEFAULT_TIMEZONE
    notificationTypes := d.nextNotificationTypes
    notificationPrefs := d.notificationPrefs
    lastNotificationWindow := d.lastNotificationWindow }

/-- Embeds the window-idempotency filter of `sendUnifiedNotifications`
(`unifiedCron.ts:84`): drop every eligible user whose stored
`lastNotificationWindow` already equals the current window key. -/
def usersToNotify (eligibleUsers : List EligibleUser) (windowKey : String) :
    List EligibleUser :=
  eligibleUsers.filter (fun u => u.lastNotificationWindow ≠ some windowKey)

/-- String names of `NotificationType` as they appear in notification ids. -/
def typeName : NotificationType → String
  | .weight => "weight"
  | .breakfast => "breakfast"
  | .lunch => "lunch"
  | .dinner => "dinner"
  | .snacks => "snacks"

/-- Embeds the id construction of `sendUnifiedNotifications`
(`unifiedCron.ts:131`): `` `${type}_${user.uid}_${windowKey}` ``. -/
def notificationId (t : NotificationType) (uid : String) (windowKey : String) :
    String :=
  typeName t ++ "_" ++ uid ++ "_" ++ windowKey

/-- Registered device fields used by the payload loop. -/
structure Device where
  deviceId : String
  fcmToken : String
deriving DecidableEq

/-- A prepared notification payload (id, target device, user). -/
structure Payload where
  notificationId : String
  deviceId : String
  uid : String
deriving DecidableEq

/-- Embeds the payload fan-out loop of `sendUnifiedNotifications`
(`unifiedCron.ts:125`): one payload per due type per device. -/
def buildPayloads (uid : String) (types : List NotificationType)
    (devices : List Device) (windowKey : String) : List Payload :=
  types.flatMap fun t =>
    devices.map fun dev =>
      { notificationId := notificationId t uid windowKey
        deviceId := dev.deviceId
        uid := uid }

/-! ## Statement vocabulary -/

/-- Whether the preference stored for `t` exists and is enabled. -/
def prefEnabled (ps : NotificationPrefs) (t : NotificationType) : Bool :=
  match getPref ps t with
  | some p => p.enabled
  | none => false

/-- The converted next-UTC instant of `t`'s stored local time (only
meaningful when the preference exists). -/
def convInstant (ps : NotificationPrefs) (tzOff now : Int)
    (t : NotificationType) : Int :=
  match getPref ps t with
  | some p => localTimeToNextUTC p.hour p.minute tzOff now
  | none => 0

/-- A concrete well-formed workflow id (Crockford-base32 ULID body). -/
def sampleWorkflowId : String := "WF_01ARZ3NDEKTSV4RRFFQ69G5FAV"

/-- A concrete workflow document that is still effectively active at
instant 50. -/
def sampleActiveWorkflow : WorkflowDocument :=
  { id := sampleWorkflowId
    type := .LOG_WEIGHT
    status := .ACTIVE
    payload := ⟨none, none⟩
    userId := none
    campaignId := none
    createdAt := 0
    expiresAt := 100
    completedAt := none
    maxResolves := some 2
    metadata := ⟨0, 0, none⟩ }

/-- Preferences with `weight` at 08:00 and `lunch` at 12:00 local, in a
UTC-offset-0 timezone. -/
def twoMealPrefs : NotificationPrefs :=
  ⟨some ⟨true, 8, 0⟩, none, some ⟨true, 12, 0⟩, none, none⟩

/-- A user document due at minute 1920 (day 1, 08:00 UTC) holding
`twoMealPrefs`. -/
def twoMealDoc : SchedUserDoc :=
  ⟨some 0, some twoMealPrefs, some 1920, [.weight], none⟩

/-- A user document reached through the preference-update mutation path
alone: starting from a blank UTC-timezone document, enable weight at 08:00
and lunch at 12:00 local at instant 0. -/
def reachedTwoMealDoc : SchedUserDoc :=
  updateNotificationPref
    (updateNotificationPref ⟨some 0, none, none, [], none⟩
      ⟨.weight, true, some 8, some 0⟩ none 0)
    ⟨.lunch, true, some 12, some 0⟩ none 0

/-! ## Helper lemmas -/

/-- Floor-dividing the millisecond distance of two calendar dates by a day
recovers the day difference. -/
theorem diffDays_eq (l d : Int) :
    Int.fdiv (dateMs d - dateMs l) msPerDay = d - l := by
  have h : dateMs d - dateMs l = (d - l) * msPerDay := by
    unfold dateMs; ring
  rw [h, Int.mul_fdiv_cancel _ (by norm_num [msPerDay])]

/-- Evaluation of `computeStreak` on a present prior date, through the exact
day difference. -/
theorem computeStreak_some (s l d : Int) :
    computeStreak s (some l) d =
      if d - l = 0 then s else if d - l = 1 then s + 1 else 1 := by
  show (let diffDays := (dateMs d - dateMs l).fdiv msPerDay;
    if diffDays = 0 then s else if diffDays = 1 then s + 1 else 1) = _
  rw [show (dateMs d - dateMs l).fdiv msPerDay = d - l from diffDays_eq l d]

/-! ## C2: streak rule -/

/-- C2. For every (current streak, last-log date, new local date): no prior
date gives streak 1; the same date leaves the streak unchanged; exactly one
calendar day later increments it; any larger gap resets it to 1. -/
theorem computeStreak_spec (s l d : Int) :
    computeStreak s none d = 1 ∧
    computeStreak s (some l) l = s ∧
    computeStreak s (some l) (l + 1) = s + 1 ∧
    (l + 2 ≤ d → computeStreak s (some l) d = 1) := by
  refine ⟨rfl, ?_, ?_, fun hgap => ?_⟩
  · rw [computeStreak_some]; simp
  · rw [computeStreak_some]; norm_num
  · rw [computeStreak_some]
    rw [if_neg (by omega), if_neg (by omega)]

/-- Witness for C2 at streak 5, prior date 10, new dates 10/11/13. -/
theorem computeStreak_spec_witness :
    computeStreak 5 none 13 = 1 ∧ computeStreak 5 (some 10) 10 = 5 ∧
    computeStreak 5 (some 10) 11 = 6 ∧ computeStreak 5 (some 10) 13 = 1 :=
  ⟨(computeStreak_spec 5 10 13).1, (computeStreak_spec 5 10 13).2.1,
   (computeStreak_spec 5 10 13).2.2.1,
   (computeStreak_spec 5 10 13).2.2.2 (by norm_num)⟩

/-! ## C1: event-id idempotency -/

/-- C1. Re-submitting the parameters of any already-applied submission
returns `duplicate` and performs no write at all: the store (event-id set
and the whole user document — streak, last-log date, total logs, timezone,
last-active) is exactly the state left by the first submission, at every
later server instant, so `trackEvent` is safe to retry unboundedly. -/
theorem trackEventTx_idempotent (s : EventsState) (p : TrackParams)
    (now now' : Int) :
    trackEventTx (trackEventTx s p now).2 p now' =
      (.duplicate, (trackEventTx s p now).2) := by
  by_cases h : p.eventId ∈ s.events
  · simp [trackEventTx, h]
  · cases hu : s.user <;>
      by_cases hw : p.eventName = .WEIGHT_LOGGED <;>
        simp [trackEventTx, h, hu, hw]

/-! ## C9: total log count -/

/-- C9 failing input. The very first `WEIGHT_LOGGED` event of a previously
absent user is accepted as `created` and computes streak 1, yet leaves
`total_logs` at 0 instead of 1: in the merge-set initialising the user
document the literal field `total_logs: 0` is written after the spread of
`streakUpdate`, overriding its `FieldValue.increment(1)`. -/
theorem trackEventTx_first_weight_total_logs_zero :
    (trackEventTx ⟨[], none⟩ ⟨"e1", .WEIGHT_LOGGED, 0, 0⟩ 0).1 = .created ∧
    ((trackEventTx ⟨[], none⟩ ⟨"e1", .WEIGHT_LOGGED, 0, 0⟩ 0).2.user.map
      UserState.total_logs) = some 0 ∧
    ((trackEventTx ⟨[], none⟩ ⟨"e1", .WEIGHT_LOGGED, 0, 0⟩ 0).2.user.map
      UserState.current_streak) = some 1 := by
  refine ⟨rfl, rfl, rfl⟩

/-- Effective status is `COMPLETED` exactly when the persisted status is. -/
theorem computeStatus_completed_iff (w : WorkflowDocument) (now : Int) :
    computeStatus w now = .COMPLETED ↔ w.status = .COMPLETED := by
  unfold computeStatus
  by_cases h : w.status = .COMPLETED
  · simp [h]
  · by_cases h2 : w.expiresAt < now <;> simp [h, h2]

/-! ## C3: completion transition -/

/-- C3. Inside one atomic transaction, `complete` on an effectively
COMPLETED workflow succeeds without further writes; on an effectively
EXPIRED one it rejects with a conflict error and leaves the persisted
document unchanged; on an ACTIVE one it writes status COMPLETED and the
completion instant; and after any successful completion a second call at
any later instant succeeds again without changing the document, so the
single completion instant is preserved. -/
theorem completeWorkflowTx_spec (w : WorkflowDocument) (now now2 : Int) :
    (computeStatus w now = .COMPLETED →
      completeWorkflowTx (some w) now = (.ok (), some w)) ∧
    (computeStatus w now = .EXPIRED →
      completeWorkflowTx (some w) now = (.error .workflowExpired, some w)) ∧
    (computeStatus w now = .ACTIVE →
      completeWorkflowTx (some w) now =
        (.ok (), some { w with status := .COMPLETED, completedAt := some now })) ∧
    ((completeWorkflowTx (some w) now).1 = .ok () →
      completeWorkflowTx (completeWorkflowTx (some w) now).2 now2 =
        (.ok (), (completeWorkflowTx (some w) now).2)) := by
  cases hs : computeStatus w now with
  | COMPLETED =>
    refine ⟨fun _ => by simp [completeWorkflowTx, hs], by simp [hs],
      by simp [hs], fun _ => ?_⟩
    have hw : w.status = .COMPLETED := (computeStatus_completed_iff w now).mp hs
    have hs2 : computeStatus w now2 = .COMPLETED :=
      (computeStatus_completed_iff w now2).mpr hw
    simp [completeWorkflowTx, hs, hs2]
  | EXPIRED =>
    refine ⟨by simp [hs], fun _ => by simp [completeWorkflowTx, hs],
      by simp [hs], fun hok => ?_⟩
    simp [completeWorkflowTx, hs] at hok
  | ACTIVE =>
    refine ⟨by simp [hs], by simp [hs],
      fun _ => by simp [completeWorkflowTx, hs], fun _ => ?_⟩
    have hs2 : computeStatus
        { w with status := .COMPLETED, completedAt := some now } now2 =
          .COMPLETED := by
      simp [computeStatus]
    simp [completeWorkflowTx, hs, hs2]

/-- Witness for C3: completing `sampleActiveWorkflow` at instant 50 writes
status COMPLETED with completion instant 50, and a repeat call at instant
60 succeeds without changing the document. -/
theorem completeWorkflowTx_spec_witness :
    completeWorkflowTx (some sampleActiveWorkflow) 50 =
      (.ok (), some { sampleActiveWorkflow with
        status := .COMPLETED, completedAt := some 50 }) ∧
    completeWorkflowTx (completeWorkflowTx (some sampleActiveWorkflow) 50).2 60 =
      (.ok (), (completeWorkflowTx (some sampleActiveWorkflow) 50).2) :=
  ⟨(completeWorkflowTx_spec sampleActiveWorkflow 50 60).2.2.1 (by decide),
   (completeWorkflowTx_spec sampleActiveWorkflow 50 60).2.2.2 rfl⟩

/-! ## C10: maxResolves is stored but never enforced -/

/-- C10. `resolve` on a well-formed, existing id always succeeds and bumps
the resolve counter by exactly one, for every document — in particular for
every value of `maxResolves` and every prior counter value, which the
function never reads; iterating it grows the counter linearly while
`maxResolves` stays fixed, so the counter exceeds any cap. -/
theorem resolveWorkflow_cap_unenforced (id : String) (w : WorkflowDocument)
    (now : Int) (h : validWorkflowId id = true) :
    resolveWorkflow id (some w) now =
      (.ok { type := w.type, status := computeStatus w now,
             payload := w.payload, expiresAt := w.expiresAt },
       some { w with metadata := { w.metadata with
                resolveCount := w.metadata.resolveCount + 1
                lastResolvedAt := some now } }) ∧
    (∀ n : Nat, (resolveIter id w now n).metadata.resolveCount =
        w.metadata.resolveCount + n) ∧
    (∀ n : Nat, (resolveIter id w now n).maxResolves = w.maxResolves) ∧
    (∀ cap : Int, ∃ n : Nat,
      cap < (resolveIter id w now n).metadata.resolveCount) := by
  have hstep : ∀ v : WorkflowDocument,
      resolveWorkflow id (some v) now =
        (.ok { type := v.type, status := computeStatus v now,
               payload := v.payload, expiresAt := v.expiresAt },
         some { v with metadata := { v.metadata with
                  resolveCount := v.metadata.resolveCount + 1
                  lastResolvedAt := some now } }) := by
    intro v
    simp [resolveWorkflow, h]
  have hcount : ∀ n : Nat, (resolveIter id w now n).metadata.resolveCount =
      w.metadata.resolveCount + n := by
    intro n
    induction n with
    | zero => simp [resolveIter]
    | succ k ih =>
      rw [resolveIter, hstep]
      simp only
      rw [ih]
      push_cast
      ring
  refine ⟨hstep w, hcount, ?_, fun cap => ?_⟩
  · intro n
    induction n with
    | zero => rfl
    | succ k ih =>
      rw [resolveIter, hstep]
      simpa using ih
  · refine ⟨(cap - w.metadata.resolveCount).toNat + 1, ?_⟩
    rw [hcount]
    have := Int.self_le_toNat (cap - w.metadata.resolveCount)
    push_cast
    omega

/-- Witness for C10 on `sampleActiveWorkflow` (which carries
`maxResolves = some 2`): one resolve at instant 50 succeeds and bumps the
counter, three resolves drive the counter to 3 > 2 while the cap stays
stored. -/
theorem resolveWorkflow_cap_unenforced_witness :
    resolveWorkflow sampleWorkflowId (some sampleActiveWorkflow) 50 =
      (.ok { type := sampleActiveWorkflow.type
             status := computeStatus sampleActiveWorkflow 50
             payload := sampleActiveWorkflow.payload
             expiresAt := sampleActiveWorkflow.expiresAt },
       some { sampleActiveWorkflow with metadata :=
        { sampleActiveWorkflow.metadata with
            resolveCount := sampleActiveWorkflow.metadata.resolveCount + 1
            lastResolvedAt := some 50 } }) ∧
    (resolveIter sampleWorkflowId sampleActiveWorkflow 50 3).metadata.resolveCount = 3 ∧
    (resolveIter sampleWorkflowId sampleActiveWorkflow 50 3).maxResolves = some 2 := by
  have h : validWorkflowId sampleWorkflowId = true := by decide
  refine ⟨(resolveWorkflow_cap_unenforced sampleWorkflowId sampleActiveWorkflow 50 h).1, ?_, ?_⟩
  · rw [(resolveWorkflow_cap_unenforced sampleWorkflowId sampleActiveWorkflow 50 h).2.1 3]
    rfl
  · rw [(resolveWorkflow_cap_unenforced sampleWorkflowId sampleActiveWorkflow 50 h).2.2.1 3]
    rfl

/-! ## C4: window-based retry guard -/

/-- C4. The driver's idempotency filter drops every eligible user whose
stored last-processed window equals the current window key; a successful
schedule-advance stores exactly that key, so the user re-read on a retry of
the same tick is never selected again. -/
theorem windowGuard_spec (users : List EligibleUser) (wk : String)
    (u : EligibleUser) (uid : String) (d : SchedUserDoc) (now : Int) :
    (u.lastNotificationWindow = some wk → u ∉ usersToNotify users wk) ∧
    (scheduleNextNotification d wk now).lastNotificationWindow = some wk ∧
    toEligibleUser uid (scheduleNextNotification d wk now) ∉
      usersToNotify users wk := by
  have hdrop : ∀ v : EligibleUser, v.lastNotificationWindow = some wk →
      v ∉ usersToNotify users wk := by
    intro v hv hmem
    rcases List.mem_filter.mp hmem with ⟨-, hpred⟩
    simp [hv] at hpred
  have hset : (scheduleNextNotification d wk now).lastNotificationWindow =
      some wk := by
    unfold scheduleNextNotification
    cases hr : (computeNextNotification d.notificationPrefs
        (d.timezone.getD DEFAULT_TIMEZONE) now).1 <;> simp [hr]
  exact ⟨hdrop u, hset, hdrop _ hset⟩

/-- Witness for C4: a user whose stored window is the current key
`"2026-02-05T07:30"` is dropped from a singleton eligible list. -/
theorem windowGuard_spec_witness :
    (⟨"u1", 0, [], none, some "2026-02-05T07:30"⟩ : EligibleUser) ∉
      usersToNotify [⟨"u1", 0, [], none, some "2026-02-05T07:30"⟩]
        "2026-02-05T07:30" :=
  (windowGuard_spec [⟨"u1", 0, [], none, some "2026-02-05T07:30"⟩]
    "2026-02-05T07:30" ⟨"u1", 0, [], none, some "2026-02-05T07:30"⟩
    "u1" ⟨none, none, none, [], none⟩ 0).1 rfl

/-! ## C8: notification-id determinism -/

/-- C8 counterexample. Two distinct devices of the same user in the same
window receive payloads with the SAME notification id: the id is built from
type, user and window only, so the claimed per-device distinctness fails. -/
theorem buildPayloads_shared_id_counterexample :
    buildPayloads "u1" [.weight] [⟨"d1", "t1"⟩, ⟨"d2", "t2"⟩]
        "2026-02-05T07:30" =
      [⟨"weight_u1_2026-02-05T07:30", "d1", "u1"⟩,
       ⟨"weight_u1_2026-02-05T07:30", "d2", "u1"⟩] ∧
    ("d1" : String) ≠ "d2" := by
  refine ⟨rfl, by decide⟩

/-- C8 amended. Every dispatched payload carries the id
`notificationId (type, user, window)` — deterministic in that triple and
independent of the device — so duplicate dispatch attempts for the same
(type, user, window) collide on the same id (all devices of the user
included), rather than producing fresh ids. -/
theorem buildPayloads_id_spec (uid wk : String)
    (types : List NotificationType) (devices : List Device) :
    (∀ p ∈ buildPayloads uid types devices wk,
      ∃ t ∈ types, ∃ dev ∈ devices,
        p = ⟨notificationId t uid wk, dev.deviceId, uid⟩) ∧
    (∀ t ∈ types, ∀ dev ∈ devices,
      (⟨notificationId t uid wk, dev.deviceId, uid⟩ : Payload) ∈
        buildPayloads uid types devices wk) := by
  constructor
  · intro p hp
    rcases List.mem_flatMap.mp hp with ⟨t, ht, hmap⟩
    rcases List.mem_map.mp hmap with ⟨dev, hdev, hpd⟩
    exact ⟨t, ht, dev, hdev, hpd.symm⟩
  · intro t ht dev hdev
    exact List.mem_flatMap.mpr ⟨t, ht, List.mem_map.mpr ⟨dev, hdev, rfl⟩⟩

/-- Witness for C8's amended statement: the payload for device `d1` in a
two-device fan-out carries the device-independent id. -/
theorem buildPayloads_id_spec_witness :
    (⟨notificationId .weight "u1" "2026-02-05T07:30", "d1", "u1"⟩ : Payload) ∈
      buildPayloads "u1" [.weight] [⟨"d1", "t1"⟩, ⟨"d2", "t2"⟩]
        "2026-02-05T07:30" :=
  (buildPayloads_id_spec "u1" "2026-02-05T07:30" [.weight]
    [⟨"d1", "t1"⟩, ⟨"d2", "t2"⟩]).2 .weight (by decide) ⟨"d1", "t1"⟩ (by decide)

/-! ## C5: minimum next-notification across enabled preferences -/

/-- A left fold of `min` is bounded by its initial value. -/
theorem foldl_min_le_init (l : List Int) (a : Int) : l.foldl min a ≤ a := by
  induction l generalizing a with
  | nil => simp
  | cons x xs ih => exact le_trans (ih (min a x)) (min_le_left a x)

/-- A left fold of `min` is bounded by every list element. -/
theorem foldl_min_le_mem (l : List Int) (a : Int) {x : Int} (hx : x ∈ l) :
    l.foldl min a ≤ x := by
  induction l generalizing a with
  | nil => cases hx
  | cons y ys ih =>
    rcases List.mem_cons.mp hx with h | h
    · subst h
      exact le_trans (foldl_min_le_init ys (min a x)) (min_le_right a x)
    · exact ih (min a y) h

/-- A left fold of `min` is attained: it is the initial value or a list
element. -/
theorem foldl_min_attained (l : List Int) (a : Int) :
    l.foldl min a = a ∨ l.foldl min a ∈ l := by
  induction l generalizing a with
  | nil => exact Or.inl rfl
  | cons x xs ih =>
    rw [List.foldl_cons]
    rcases ih (min a x) with h | h
    · rcases min_choice a x with hm | hm
      · exact Or.inl (h.trans hm)
      · exact Or.inr (by rw [h, hm]; exact List.mem_cons_self ..)
    · exact Or.inr (List.mem_cons_of_mem _ h)

/-- The loop body of `computeNextNotification`, rewritten through the
statement vocabulary. -/
theorem notificationCandidate_eq (ps : NotificationPrefs) (tzOff now : Int)
    (t : NotificationType) :
    notificationCandidate ps tzOff now t =
      if prefEnabled ps t then some (t, convInstant ps tzOff now t)
      else none := by
  unfold notificationCandidate prefEnabled convInstant
  cases getPref ps t with
  | none => rfl
  | some p => by_cases hp : p.enabled <;> simp [hp]

/-- Membership in the candidate list collected over a type list. -/
theorem mem_candidates (ps : NotificationPrefs) (tzOff now : Int)
    (L : List NotificationType) (x : NotificationType × Int) :
    x ∈ L.filterMap (notificationCandidate ps tzOff now) ↔
      x.1 ∈ L ∧ prefEnabled ps x.1 = true ∧
        x.2 = convInstant ps tzOff now x.1 := by
  rw [List.mem_filterMap]
  constructor
  · rintro ⟨t, ht, hft⟩
    rw [notificationCandidate_eq] at hft
    by_cases he : prefEnabled ps t
    · rw [if_pos he, Option.some_inj] at hft
      subst hft
      exact ⟨ht, he, rfl⟩
    · rw [if_neg he] at hft
      cases hft
  · rintro ⟨h1, h2, h3⟩
    refine ⟨x.1, h1, ?_⟩
    rw [notificationCandidate_eq, if_pos h2, ← h3]

/-- The candidate list is empty exactly when no preference in the type
list is enabled. -/
theorem candidates_eq_nil (ps : NotificationPrefs) (tzOff now : Int)
    (L : List NotificationType) :
    L.filterMap (notificationCandidate ps tzOff now) = [] ↔
      ∀ t ∈ L, prefEnabled ps t = false := by
  rw [List.filterMap_eq_nil_iff]
  constructor <;> intro h t ht <;> have ht2 := h t ht <;>
    rw [notificationCandidate_eq] at * <;> by_cases he : prefEnabled ps t
  · rw [if_pos he] at ht2; cases ht2
  · simpa using he
  · rw [ht2] at he; cases he
  · rw [if_neg he]

/-- Unfolding equation of `computeNextNotification` on a present
preference map. -/
theorem computeNextNotification_some_eq (ps : NotificationPrefs)
    (tzOff now : Int) :
    computeNextNotification (some ps) tzOff now =
      minCandidate
        (NOTIFICATION_TYPES.filterMap (notificationCandidate ps tzOff now)) :=
  rfl

/-- C5. `computeNextNotification` returns no next instant when the
preference map is absent or nothing is enabled; as soon as one preference
is enabled it returns the minimum of the converted next-UTC instants over
all enabled preferences, attained by some enabled type, together with
exactly the enabled types whose converted instant equals that minimum
(ties included). -/
theorem computeNextNotification_spec (ps : NotificationPrefs)
    (tzOff now : Int) :
    computeNextNotification none tzOff now = (none, []) ∧
    ((∀ t ∈ NOTIFICATION_TYPES, prefEnabled ps t = false) →
      computeNextNotification (some ps) tzOff now = (none, [])) ∧
    (∀ t0 ∈ NOTIFICATION_TYPES, prefEnabled ps t0 = true →
      ∃ m, (computeNextNotification (some ps) tzOff now).1 = some m ∧
        (∀ t ∈ NOTIFICATION_TYPES, prefEnabled ps t = true →
          m ≤ convInstant ps tzOff now t) ∧
        (∃ t ∈ NOTIFICATION_TYPES, prefEnabled ps t = true ∧
          convInstant ps tzOff now t = m) ∧
        (∀ t, t ∈ (computeNextNotification (some ps) tzOff now).2 ↔
          (t ∈ NOTIFICATION_TYPES ∧ prefEnabled ps t = true ∧
            convInstant ps tzOff now t = m))) := by
  refine ⟨rfl, ?_, ?_⟩
  · intro hall
    rw [computeNextNotification_some_eq,
      (candidates_eq_nil ps tzOff now NOTIFICATION_TYPES).mpr hall]
    rfl
  · intro t0 ht0 he0
    have hmem0 : (t0, convInstant ps tzOff now t0) ∈
        NOTIFICATION_TYPES.filterMap (notificationCandidate ps tzOff now) :=
      (mem_candidates ps tzOff now NOTIFICATION_TYPES _).mpr ⟨ht0, he0, rfl⟩
    rcases hc : NOTIFICATION_TYPES.filterMap (notificationCandidate ps tzOff now) with
      _ | ⟨c, rest⟩
    · rw [hc] at hmem0; cases hmem0
    have hres : computeNextNotification (some ps) tzOff now =
        (some ((rest.map Prod.snd).foldl min c.2),
         ((c :: rest).filter
            (fun x => x.2 == (rest.map Prod.snd).foldl min c.2)).map Prod.fst) := by
      rw [computeNextNotification_some_eq, hc]
      rfl
    refine ⟨(rest.map Prod.snd).foldl min c.2, by rw [hres], ?_, ?_, ?_⟩
    · intro t ht he
      have hx : (t, convInstant ps tzOff now t) ∈ c :: rest := by
        rw [← hc]
        exact (mem_candidates ps tzOff now NOTIFICATION_TYPES _).mpr ⟨ht, he, rfl⟩
      rcases List.mem_cons.mp hx with h | h
      · rw [show convInstant ps tzOff now t = c.2 from congrArg Prod.snd h]
        exact foldl_min_le_init ..
      · exact foldl_min_le_mem _ _ (List.mem_map_of_mem Prod.snd h)
    · rcases foldl_min_attained (rest.map Prod.snd) c.2 with h | h
      · have hcmem : c ∈ NOTIFICATION_TYPES.filterMap
            (notificationCandidate ps tzOff now) := by
          rw [hc]; exact List.mem_cons_self ..
        rcases (mem_candidates ps tzOff now NOTIFICATION_TYPES c).mp hcmem with
          ⟨h1, h2, h3⟩
        exact ⟨c.1, h1, h2, by rw [← h3, h]⟩
      · rcases List.mem_map.mp h with ⟨x, hx, hx2⟩
        have hxmem : x ∈ NOTIFICATION_TYPES.filterMap
            (notificationCandidate ps tzOff now) := by
          rw [hc]; exact List.mem_cons_of_mem _ hx
        rcases (mem_candidates ps tzOff now NOTIFICATION_TYPES x).mp hxmem with
          ⟨h1, h2, h3⟩
        exact ⟨x.1, h1, h2, by rw [← h3, hx2]⟩
    · intro t
      rw [hres]
      constructor
      · intro ht
        rcases List.mem_map.mp ht with ⟨x, hxf, hx1⟩
        rcases List.mem_filter.mp hxf with ⟨hxmem, hxeq⟩
        have hxc : x ∈ NOTIFICATION_TYPES.filterMap
            (notificationCandidate ps tzOff now) := by rw [hc]; exact hxmem
        rcases (mem_candidates ps tzOff now NOTIFICATION_TYPES x).mp hxc with
          ⟨h1, h2, h3⟩
        subst hx1
        exact ⟨h1, h2, by rw [← h3]; exact beq_iff_eq.mp hxeq⟩
      · rintro ⟨h1, h2, h3⟩
        refine List.mem_map.mpr ⟨(t, convInstant ps tzOff now t), ?_, rfl⟩
        refine List.mem_filter.mpr ⟨?_, ?_⟩
        · rw [← hc]
          exact (mem_candidates ps tzOff now NOTIFICATION_TYPES _).mpr
            ⟨h1, h2, rfl⟩
        · exact beq_iff_eq.mpr h3

/-- Witness for C5 at `twoMealPrefs` in UTC at minute 1925 (day 1, 08:05):
lunch at 12:00 is the minimum (2160), weight's converted instant (3360) is
not below it, and the tie set is exactly `[lunch]`. -/
theorem computeNextNotification_spec_witness :
    (computeNextNotification (some twoMealPrefs) 0 1925).1 = some 2160 ∧
    (computeNextNotification (some twoMealPrefs) 0 1925).2 = [.lunch] ∧
    convInstant twoMealPrefs 0 1925 .lunch = 2160 := by
  have h := (computeNextNotification_spec twoMealPrefs 0 1925).2.2
    .lunch (by decide) (by decide)
  rcases h with ⟨m, h1, -, -, h4⟩
  have hm : m = 2160 := by
    have : (computeNextNotification (some twoMealPrefs) 0 1925).1 =
        some 2160 := by decide
    rw [h1] at this
    exact (Option.some_inj.mp this)
  refine ⟨by rw [h1, hm], ?_, by decide⟩
  have := h4 .lunch
  subst hm
  decide

/-! ## C6: stored-schedule invariant across the mutation paths -/

/-- When `computeNextNotification` finds no instant its type set is
empty. -/
theorem computeNextNotification_none_snd (p : Option NotificationPrefs)
    (tzOff now : Int) (h : (computeNextNotification p tzOff now).1 = none) :
    (computeNextNotification p tzOff now).2 = [] := by
  cases p with
  | none => rfl
  | some ps =>
    rw [computeNextNotification_some_eq] at h ⊢
    cases hc : NOTIFICATION_TYPES.filterMap (notificationCandidate ps tzOff now) with
    | nil => rfl
    | cons c rest =>
      rw [hc] at h
      simp [minCandidate] at h

/-- C6 counterexample. A state reached purely through the mutation paths
violates the claimed invariant: from a blank UTC document, enabling weight
at 08:00 and lunch at 12:00 stores next instant 480 (consistent); but the
driver's schedule-advance at minute 1925 (day 1, 08:05, when the weight
slot is due) stores next instant 3600 (day 2, 12:00) while the minimum
converted next occurrence over the enabled preferences is 2160 (day 1,
12:00) — the 23-hour clamp pushed the still-upcoming lunch slot a full day
forward. -/
theorem scheduleNextNotification_invariant_counterexample :
    reachedTwoMealDoc.nextNotificationUTC = some 480 ∧
    (scheduleNextNotification reachedTwoMealDoc "2026-01-02T08:00"
      1925).nextNotificationUTC = some 3600 ∧
    (computeNextNotification
      (scheduleNextNotification reachedTwoMealDoc "2026-01-02T08:00"
        1925).notificationPrefs
      ((scheduleNextNotification reachedTwoMealDoc "2026-01-02T08:00"
        1925).timezone.getD DEFAULT_TIMEZONE) 1925).1 = some 2160 ∧
    (scheduleNextNotification reachedTwoMealDoc "2026-01-02T08:00"
      1925).nextNotificationUTC ≠
      (computeNextNotification
        (scheduleNextNotification reachedTwoMealDoc "2026-01-02T08:00"
          1925).notificationPrefs
        ((scheduleNextNotification reachedTwoMealDoc "2026-01-02T08:00"
          1925).timezone.getD DEFAULT_TIMEZONE) 1925).1 := by
  refine ⟨rfl, rfl, rfl, by decide⟩

/-- C6 amended. After a preference update, the stored next instant and
type set equal `computeNextNotification` recomputed on the resulting state
(the claimed invariant holds on this path); after the driver's
schedule-advance, the stored type set still equals the recomputed tie set,
but the stored instant is the recomputed minimum pushed one day later
whenever that minimum lies less than 23 hours ahead — it equals the
recomputed minimum only otherwise. -/
theorem mutationPaths_schedule_spec (d : SchedUserDoc)
    (input : NotificationPrefInput) (utz : Option Int) (now : Int)
    (wk : String) :
    (updateNotificationPref d input utz now).nextNotificationUTC =
      (computeNextNotification
        (updateNotificationPref d input utz now).notificationPrefs
        ((updateNotificationPref d input utz now).timezone.getD
          DEFAULT_TIMEZONE) now).1 ∧
    (updateNotificationPref d input utz now).nextNotificationTypes =
      (computeNextNotification
        (updateNotificationPref d input utz now).notificationPrefs
        ((updateNotificationPref d input utz now).timezone.getD
          DEFAULT_TIMEZONE) now).2 ∧
    (scheduleNextNotification d wk now).nextNotificationTypes =
      (computeNextNotification
        (scheduleNextNotification d wk now).notificationPrefs
        ((scheduleNextNotification d wk now).timezone.getD
          DEFAULT_TIMEZONE) now).2 ∧
    (scheduleNextNotification d wk now).nextNotificationUTC =
      (match (computeNextNotification
          (scheduleNextNotification d wk now).notificationPrefs
          ((scheduleNextNotification d wk now).timezone.getD
            DEFAULT_TIMEZONE) now).1 with
        | none => none
        | some t => some (if t < now + 23 * 60 then t + minutesPerDay else t)) := by
  have hsched : ∀ x, x = scheduleNextNotification d wk now →
      x.notificationPrefs = d.notificationPrefs ∧ x.timezone = d.timezone := by
    intro x hx
    subst hx
    unfold scheduleNextNotification
    cases hr : (computeNextNotification d.notificationPrefs
        (d.timezone.getD DEFAULT_TIMEZONE) now).1 <;> simp [hr]
  obtain ⟨hp, ht⟩ := hsched _ rfl
  refine ⟨?_, ?_, ?_, ?_⟩
  · cases utz <;> simp only [updateNotificationPref, Option.getD_some]
  · cases hu : utz with
    | none =>
      simp only [updateNotificationPref]
      cases hm : (computeNextNotification
          (some (setPref (d.notificationPrefs.getD ⟨none, none, none, none, none⟩)
            input.type
            ⟨input.enabled, input.hour.getD (NOTIFICATION_DEFAULTS input.type).hour,
              input.minute.getD (NOTIFICATION_DEFAULTS input.type).minute⟩))
          (d.timezone.getD DEFAULT_TIMEZONE) now).1 with
      | none => simp [hm, computeNextNotification_none_snd _ _ _ hm]
      | some t => simp [hm]
    | some tz =>
      simp only [updateNotificationPref]
      cases hm : (computeNextNotification
          (some (setPref (d.notificationPrefs.getD ⟨none, none, none, none, none⟩)
            input.type
            ⟨input.enabled, input.hour.getD (NOTIFICATION_DEFAULTS input.type).hour,
              input.minute.getD (NOTIFICATION_DEFAULTS input.type).minute⟩))
          tz now).1 with
      | none => simp [hm, computeNextNotification_none_snd _ _ _ hm]
      | some t => simp [hm]
  · rw [hp, ht]
    unfold scheduleNextNotification
    cases hm : (computeNextNotification d.notificationPrefs
        (d.timezone.getD DEFAULT_TIMEZONE) now).1 with
    | none => simp [hm, computeNextNotification_none_snd _ _ _ hm]
    | some t => simp [hm]
  · rw [hp, ht]
    unfold scheduleNextNotification
    cases hm : (computeNextNotification d.notificationPrefs
        (d.timezone.getD DEFAULT_TIMEZONE) now).1 with
    | none => simp [hm]
    | some t => simp [hm]

/-! ## C7: local-time to next-UTC conversion -/

/-- C7 failing input. In a UTC+03:00 timezone at 23:30 UTC (local 02:30 of
the next local day), the conversion of local 05:00 returns minute 120 —
an instant whose local wall clock does read 05:00, but which lies in the
past (120 < 1410 = now): the "today/tomorrow" bump keys off the local
clock while the instant is built on the current UTC calendar day.  The
next occurrence of local 05:00 is minute 1560, not 120. -/
theorem localTimeToNextUTC_past_instant :
    localTimeToNextUTC 5 0 180 1410 = 120 ∧ (120 : Int) < 1410 ∧
    hourOfDay (120 + 180) = 5 ∧ minuteOfHour (120 + 180) = 0 ∧
    hourOfDay (1560 + 180) = 5 ∧ minuteOfHour (1560 + 180) = 0 ∧
    (1410 : Int) < 1560 := by
  refine ⟨by decide, by decide, by decide, by decide, by decide, by decide,
    by decide⟩

end WeightTracker
